import Mathlib

/-!
Verification of the function-name resolution subsystem of
`pkg/sql/parser/function_name.go`: the name normalizer
(`normalizeFunctionName`), the resolver (`ResolveFunction`), the
resolvable reference cell (`ResolvableFunctionReference.Resolve`) and the
direct-construction helper (`wrapFunction`).

The Go code is embedded shallowly:

* The process-wide registry `funDefs : map[string]*FunctionDefinition`
  (populated externally by `setupBuiltins`, out of scope) is threaded in
  explicitly as an association list with first-match lookup.
* Go errors built by `fmt.Errorf` are modelled by an inductive keyed by
  the format string and its argument: the source uses exactly two format
  strings, `"invalid function name: %s"` (in `normalizeFunctionName` and
  in the selector rejection of `ResolveFunction`) and
  `"unknown function: %s()"`.
* The mutation of the reference cell by `Resolve` is modelled by state
  passing: `Resolve` returns the result together with the new cell value.
* `wrapFunction`'s panic on an unregistered name is modelled as `none`.
-/

namespace FunctionNameGo

/-- A part of an unresolved name: a plain identifier (the source's `Name`,
a string) or an array-subscript marker (`*ArraySubscript`; its expression
contents play no role in name resolution and are not modelled). -/
inductive NamePart where
| name (s : String)
| arraySubscript
deriving DecidableEq, Repr

/-- Whether a part is an `*ArraySubscript` (the type test in the scan loop
of `normalizeFunctionName`). -/
def NamePart.isSubscript : NamePart → Bool
| NamePart.name _ => false
| NamePart.arraySubscript => true

/-- `NameParts`: an ordered sequence of name parts. -/
abbrev NameParts := List NamePart

/-- `UnresolvedName`: the raw multi-part name produced by the parser. -/
abbrev UnresolvedName := NameParts

/-- `SearchPath`: a list of namespaces to search builtins in. -/
abbrev SearchPath := List String

/-- A builtin overload signature. Its contents live in `builtins.go`,
which is out of scope; only the identity of the containing
`FunctionDefinition` matters here. -/
structure Builtin where
deriving DecidableEq, Repr

/-- `FunctionDefinition`: a reference to one or more overloads of a
built-in function. -/
structure FunctionDefinition where
  Name : String
  Definition : List Builtin
deriving DecidableEq, Repr

/-- The registry `funDefs`, modelled as an explicit association list from
fully qualified name to definition. -/
abbrev FunDefs := List (String × FunctionDefinition)

/-- Map lookup `funDefs[k]` on the association-list registry. -/
def lookupFunDef (reg : FunDefs) (k : String) : Option FunctionDefinition :=
  List.lookup k reg

/-- Modelled from the spec: the repository's `TableName` value, as
produced by `normalizeTableNameAsValue` — an optional one-level qualifier
(`DatabaseName`) plus a bare name (`TableName`). The defining code is not
under the sample's source tree. -/
structure TableName where
  DatabaseName : String
  TableName : String
deriving DecidableEq, Repr

/-- Modelled from the spec: `normalizeTableNameAsValue` (the repository's
table-name normalization, reused by `normalizeFunctionName`; its defining
code is not in the sample). Per the spec it validates that the parts form
"optional one-level qualifier + bare name": exactly one or two plain
identifier parts. The specific error is irrelevant because the caller
overrides it, so failure is `none`. -/
def normalizeTableNameAsValue (parts : NameParts) : Option TableName :=
  match parts with
  | [NamePart.name t] => some ⟨"", t⟩
  | [NamePart.name db, NamePart.name t] => some ⟨db, t⟩
  | _ => none

/-- `functionName`: structured function name, the intermediate step
between an `UnresolvedName` and a `FunctionDefinition`. -/
structure functionName where
  prefixName : String
  functionName : String
  selector : NameParts
deriving DecidableEq, Repr

/-- Errors of the resolution code. In the source these are `fmt.Errorf`
values; a constructor stands for a format string, so two errors built from
the same format string and argument are the same error. The selector
rejection in `ResolveFunction` uses the very format string
`"invalid function name: %s"` used by `normalizeFunctionName`. -/
inductive ResolveErr where
| invalidFunctionName (n : UnresolvedName)
| unknownFunction (n : UnresolvedName)
deriving DecidableEq, Repr

/-- `normalizeFunctionName` transforms an `UnresolvedName` to a
`functionName`: reject an empty sequence, find the first array subscript
(`List.findIdx` returns the length when there is none, like the Go loop),
reject a leading subscript, validate the parts before the subscript as a
table name (overriding any error), and keep the rest as the selector. -/
def UnresolvedName.normalizeFunctionName (n : UnresolvedName) :
    Except ResolveErr functionName :=
  if n.length = 0 then
    Except.error (ResolveErr.invalidFunctionName n)
  else
    let i := n.findIdx NamePart.isSubscript
    if i = 0 then
      Except.error (ResolveErr.invalidFunctionName n)
    else
      match normalizeTableNameAsValue (n.take i) with
      | none => Except.error (ResolveErr.invalidFunctionName n)
      | some tn => Except.ok ⟨tn.DatabaseName, tn.TableName, n.drop i⟩

/-- Go's `strings.ToLower`, modelled character-wise. The source relies on
function names being "guaranteed to not contain special Unicode
characters", for which per-character lowercasing is exact. -/
def toLowerGo (s : String) : String := String.mk (s.data.map Char.toLower)

/-- The slow path of `ResolveFunction` (source lines 182–211): lowercase
the prefix and the function name, look up the dotted candidate, and on a
miss with an empty prefix scan the search path in order, the first match
winning. `List.findSome?` returns the first hit in list order, exactly
like the `for`/`break` loop. -/
def resolveViaLowercase (reg : FunDefs) (n : UnresolvedName) (fn : functionName)
    (searchPath : SearchPath) : Except ResolveErr FunctionDefinition :=
  let pfx := toLowerGo fn.prefixName
  let smallName := toLowerGo fn.functionName
  let fullName := if pfx != "" then pfx ++ "." ++ smallName else smallName
  match lookupFunDef reg fullName with
  | some d => Except.ok d
  | none =>
    if pfx == "" then
      match List.findSome? (fun alt => lookupFunDef reg (alt ++ "." ++ smallName)) searchPath with
      | some d => Except.ok d
      | none => Except.error (ResolveErr.unknownFunction n)
    else
      Except.error (ResolveErr.unknownFunction n)

/-- `ResolveFunction` transforms an `UnresolvedName` to a
`FunctionDefinition`: normalize, reject a non-empty selector (with the
same `"invalid function name: %s"` error as normalization), try the fast
path (case-exact unqualified hit), then fall through to the lowercase
lookup and search-path scan. -/
def UnresolvedName.ResolveFunction (reg : FunDefs) (n : UnresolvedName)
    (searchPath : SearchPath) : Except ResolveErr FunctionDefinition :=
  match UnresolvedName.normalizeFunctionName n with
  | Except.error err => Except.error err
  | Except.ok fn =>
    if fn.selector.length > 0 then
      Except.error (ResolveErr.invalidFunctionName n)
    else
      match lookupFunDef reg fn.functionName with
      | some d =>
        if fn.prefixName == "" then Except.ok d
        else resolveViaLowercase reg n fn searchPath
      | none => resolveViaLowercase reg n fn searchPath

/-- `FunctionReference`: the common interface of `UnresolvedName` and
`*FunctionDefinition`. Only these two types implement it, so the interface
is a two-variant sum and the `default:` panic branch of `Resolve` is
structurally unreachable. -/
inductive FunctionReference where
| unresolvedName (n : UnresolvedName)
| functionDefinition (d : FunctionDefinition)
deriving DecidableEq, Repr

/-- `ResolvableFunctionReference`: the editable reference cell of a
`FuncExpr`, wrapping a `FunctionReference`. -/
structure ResolvableFunctionReference where
  FunctionReference : FunctionReference
deriving DecidableEq, Repr

/-- `Resolve` checks if the function name is already resolved and resolves
it as necessary. The Go method mutates the receiver on success; here the
new cell value is returned alongside the result: on a cached definition or
on failure the cell is returned unchanged, on a fresh success the cell now
holds the definition. -/
def ResolvableFunctionReference.Resolve (reg : FunDefs)
    (fn : ResolvableFunctionReference) (searchPath : SearchPath) :
    Except ResolveErr FunctionDefinition × ResolvableFunctionReference :=
  match fn.FunctionReference with
  | FunctionReference.functionDefinition t => (Except.ok t, fn)
  | FunctionReference.unresolvedName t =>
    match UnresolvedName.ResolveFunction reg t searchPath with
    | Except.error err => (Except.error err, fn)
    | Except.ok fd => (Except.ok fd, ⟨FunctionReference.functionDefinition fd⟩)

/-- `wrapFunction` creates a `ResolvableFunctionReference` holding a
pre-resolved function, looked up by name in `funDefs`. The Go function
panics when the name is not registered; the panic is modelled as `none`. -/
def wrapFunction (reg : FunDefs) (n : String) : Option ResolvableFunctionReference :=
  match lookupFunDef reg n with
  | none => none
  | some fd => some ⟨FunctionReference.functionDefinition fd⟩

/-! ### Helper lemmas -/

/-- Character-wise lowercasing preserves emptiness. -/
theorem toLowerGo_eq_empty_iff (s : String) : toLowerGo s = "" ↔ s = "" := by
  cases s with
  | mk data => simp [toLowerGo, String.ext_iff]

/-- When normalization succeeds with an empty selector and the fast path
misses (registry miss on the exact name, or a non-empty prefix),
`ResolveFunction` falls through to the lowercase lookup and search-path
scan. -/
theorem ResolveFunction_eq_slow (reg : FunDefs) (sp : SearchPath) (n : UnresolvedName)
    (fn : functionName)
    (h : UnresolvedName.normalizeFunctionName n = Except.ok fn)
    (hsel : fn.selector = [])
    (hmiss : lookupFunDef reg fn.functionName = none ∨ fn.prefixName ≠ "") :
    UnresolvedName.ResolveFunction reg n sp = resolveViaLowercase reg n fn sp := by
  unfold UnresolvedName.ResolveFunction
  rw [h]
  simp only [hsel, List.length_nil, gt_iff_lt, lt_self_iff_false, if_false]
  rcases hmiss with hm | hm
  · simp only [hm]
  · cases hl : lookupFunDef reg fn.functionName with
    | none => simp only [hl]
    | some d => simp only [hl, beq_iff_eq, hm, if_false]

/-! ### Claims -/

/-- C9: normalizeFunctionName fails with InvalidNameError both when the
input part sequence is empty and when the first part of the sequence is an
array-subscript marker (nothing precedes it). -/
theorem c9_empty_or_leading_subscript_invalid :
    UnresolvedName.normalizeFunctionName [] =
      Except.error (ResolveErr.invalidFunctionName []) ∧
    ∀ rest : NameParts,
      UnresolvedName.normalizeFunctionName (NamePart.arraySubscript :: rest) =
        Except.error (ResolveErr.invalidFunctionName (NamePart.arraySubscript :: rest)) :=
  ⟨rfl, fun _ => rfl⟩

/-- C3 counterexample: a sequence of three plain identifiers (no
subscript marker) is rejected by normalizeFunctionName, because the parts
before the (absent) subscript must look like a table name — at most a
one-level qualifier plus a bare name. This refutes "of any length". -/
theorem c3_three_plain_names_counterexample :
    UnresolvedName.normalizeFunctionName
        [NamePart.name "a", NamePart.name "b", NamePart.name "c"] =
      Except.error (ResolveErr.invalidFunctionName
        [NamePart.name "a", NamePart.name "b", NamePart.name "c"]) := rfl

/-- A sequence of plain identifier parts contains no subscript marker, so
the scan of normalizeFunctionName runs to the end of the sequence. -/
theorem findIdx_isSubscript_map_name (l : List String) :
    List.findIdx NamePart.isSubscript (List.map NamePart.name l) = l.length := by
  induction l with
  | nil => rfl
  | cons x xs ih => simp [List.findIdx_cons, NamePart.isSubscript, ih]

/-- Every sequence of three or more plain identifier parts is rejected by
normalizeFunctionName: the scan finds no subscript, so the whole sequence
must look like a table name, and a table name has at most two parts. -/
theorem normalizeFunctionName_three_or_more_plain (a b c : String) (rest : List String) :
    UnresolvedName.normalizeFunctionName (List.map NamePart.name (a :: b :: c :: rest)) =
      Except.error (ResolveErr.invalidFunctionName
        (List.map NamePart.name (a :: b :: c :: rest))) := by
  have hfind : List.findIdx NamePart.isSubscript
      (List.map NamePart.name (a :: b :: c :: rest)) = rest.length + 3 := by
    simpa using findIdx_isSubscript_map_name (a :: b :: c :: rest)
  have hlen : (List.map NamePart.name (a :: b :: c :: rest)).length = rest.length + 3 := by
    simp
  unfold UnresolvedName.normalizeFunctionName
  simp only [hlen, hfind]
  rw [if_neg (by omega), if_neg (by omega), ← hlen, List.take_length]
  rfl

/-- C3 (amended): for every sequence of one or two plain identifier parts
(no array-subscript marker), normalizeFunctionName succeeds and the
returned selector is empty; every sequence of three or more plain
identifier parts fails with the invalid-name error. -/
theorem c3_one_or_two_plain_names_normalize :
    (∀ a : String, UnresolvedName.normalizeFunctionName [NamePart.name a] =
      Except.ok ⟨"", a, []⟩) ∧
    (∀ a b : String,
      UnresolvedName.normalizeFunctionName [NamePart.name a, NamePart.name b] =
        Except.ok ⟨a, b, []⟩) ∧
    (∀ (a b c : String) (rest : List String),
      UnresolvedName.normalizeFunctionName (List.map NamePart.name (a :: b :: c :: rest)) =
        Except.error (ResolveErr.invalidFunctionName
          (List.map NamePart.name (a :: b :: c :: rest)))) :=
  ⟨fun _ => rfl, fun _ _ => rfl, normalizeFunctionName_three_or_more_plain⟩

/-- C2 counterexample: on a name with a non-empty selector whose
prefix/name portion is a registered builtin, ResolveFunction returns the
error constructed from the very same format string
"invalid function name: %s" used for InvalidNameError (the same
ResolveErr.invalidFunctionName kind, as e.g. for the empty name) — there
is no distinct UnsupportedNameError kind in the code. -/
theorem c2_selector_error_kind_counterexample :
    UnresolvedName.ResolveFunction [("lower", (⟨"lower", []⟩ : FunctionDefinition))]
        [NamePart.name "lower", NamePart.arraySubscript] [] =
      Except.error (ResolveErr.invalidFunctionName
        [NamePart.name "lower", NamePart.arraySubscript]) ∧
    UnresolvedName.normalizeFunctionName [] =
      Except.error (ResolveErr.invalidFunctionName []) :=
  ⟨rfl, rfl⟩

/-- C2 (amended): for every unresolved name whose normalized selector is
non-empty, ResolveFunction fails with the invalid-function-name error —
the same error kind (format string) as InvalidNameError, distinct from
UnknownFunctionError — regardless of whether the prefix/name portion alone
would have resolved (the registry is arbitrary). -/
theorem c2_selector_always_invalid_name_error (reg : FunDefs) (sp : SearchPath)
    (n : UnresolvedName) (fn : functionName)
    (h : UnresolvedName.normalizeFunctionName n = Except.ok fn)
    (hsel : fn.selector ≠ []) :
    UnresolvedName.ResolveFunction reg n sp =
      Except.error (ResolveErr.invalidFunctionName n) := by
  unfold UnresolvedName.ResolveFunction
  rw [h]
  simp [List.length_pos.mpr hsel]

/-- Witness for C2: with "lower" registered, the name lower[...] (whose
prefix/name portion alone would resolve via the fast path) still fails
with the invalid-function-name error. -/
theorem c2_selector_always_invalid_name_error_witness :
    UnresolvedName.normalizeFunctionName [NamePart.name "lower", NamePart.arraySubscript] =
      Except.ok ⟨"", "lower", [NamePart.arraySubscript]⟩ ∧
    ([NamePart.arraySubscript] : NameParts) ≠ [] ∧
    UnresolvedName.ResolveFunction [("lower", (⟨"lower", []⟩ : FunctionDefinition))]
        [NamePart.name "lower", NamePart.arraySubscript] [] =
      Except.error (ResolveErr.invalidFunctionName
        [NamePart.name "lower", NamePart.arraySubscript]) :=
  ⟨rfl, by decide,
    c2_selector_always_invalid_name_error _ _ _ ⟨"", "lower", [NamePart.arraySubscript]⟩
      rfl (by decide)⟩

/-- C4 counterexample: wrapFunction does not bypass the Registry — it
looks the name up in funDefs, so its result depends on the registry
contents (and it panics, modelled none, when the registry lacks the
name). -/
theorem c4_wrapFunction_consults_registry_counterexample :
    wrapFunction [] "lower" = none ∧
    wrapFunction [("lower", (⟨"lower", []⟩ : FunctionDefinition))] "lower" =
      some ⟨FunctionReference.functionDefinition ⟨"lower", []⟩⟩ :=
  ⟨rfl, rfl⟩

/-- C4 (amended): wrapFunction builds a cell already in the Resolved
state holding the definition found for the name in the Registry (it does
consult the Registry, though it bypasses normalization and search-path
resolution), and a cell so built resolves — returns its definition and
stays unchanged — without consulting the Registry or any search path
(Resolve's result is independent of both). -/
theorem c4_wrapFunction_builds_resolved_cell (reg : FunDefs) (n : String)
    (d : FunctionDefinition) (h : lookupFunDef reg n = some d) :
    wrapFunction reg n = some ⟨FunctionReference.functionDefinition d⟩ ∧
    ∀ (reg' : FunDefs) (sp : SearchPath),
      ResolvableFunctionReference.Resolve reg' ⟨FunctionReference.functionDefinition d⟩ sp =
        (Except.ok d, ⟨FunctionReference.functionDefinition d⟩) := by
  refine ⟨?_, fun reg' sp => rfl⟩
  simp [wrapFunction, h]

/-- Witness for C4: a cell wrapped from the registered name "lower"
resolves to its definition under an unrelated registry and a non-trivial
search path. -/
theorem c4_wrapFunction_builds_resolved_cell_witness :
    lookupFunDef [("lower", (⟨"lower", []⟩ : FunctionDefinition))] "lower" =
      some ⟨"lower", []⟩ ∧
    wrapFunction [("lower", (⟨"lower", []⟩ : FunctionDefinition))] "lower" =
      some ⟨FunctionReference.functionDefinition ⟨"lower", []⟩⟩ ∧
    ResolvableFunctionReference.Resolve []
        ⟨FunctionReference.functionDefinition ⟨"lower", []⟩⟩ ["pg_catalog"] =
      (Except.ok ⟨"lower", []⟩, ⟨FunctionReference.functionDefinition ⟨"lower", []⟩⟩) :=
  ⟨rfl,
    (c4_wrapFunction_builds_resolved_cell
      [("lower", (⟨"lower", []⟩ : FunctionDefinition))] "lower" ⟨"lower", []⟩ rfl).1,
    (c4_wrapFunction_builds_resolved_cell
      [("lower", (⟨"lower", []⟩ : FunctionDefinition))] "lower" ⟨"lower", []⟩ rfl).2
      [] ["pg_catalog"]⟩

/-- C10: wrapFunction panics (modelled as none) exactly when the name is
not a key of the registry; on a registered name it returns a cell holding
exactly the registry's definition for that name. -/
theorem c10_wrapFunction_panics_iff_unregistered (reg : FunDefs) (n : String) :
    (wrapFunction reg n = none ↔ lookupFunDef reg n = none) ∧
    ∀ d : FunctionDefinition, lookupFunDef reg n = some d →
      wrapFunction reg n = some ⟨FunctionReference.functionDefinition d⟩ := by
  constructor
  · cases h : lookupFunDef reg n <;> simp [wrapFunction, h]
  · intro d h
    simp [wrapFunction, h]

/-- Witness for C10: "bogus" is absent from the empty registry and
wrapFunction panics on it; "lower" is present in a one-entry registry and
wrapFunction wraps its definition. -/
theorem c10_wrapFunction_panics_iff_unregistered_witness :
    wrapFunction [] "bogus" = none ∧
    (lookupFunDef [("lower", (⟨"lower", []⟩ : FunctionDefinition))] "lower" =
        some ⟨"lower", []⟩ ∧
      wrapFunction [("lower", (⟨"lower", []⟩ : FunctionDefinition))] "lower" =
        some ⟨FunctionReference.functionDefinition ⟨"lower", []⟩⟩) :=
  ⟨(c10_wrapFunction_panics_iff_unregistered [] "bogus").1.mpr rfl,
    rfl,
    (c10_wrapFunction_panics_iff_unregistered
      [("lower", (⟨"lower", []⟩ : FunctionDefinition))] "lower").2 ⟨"lower", []⟩ rfl⟩

/-- C8: a cell in the Unresolved state on which the resolver fails stays
Unresolved holding the same name, and the resolver's error is returned to
the caller unchanged. -/
theorem c8_failure_leaves_cell_unresolved (reg : FunDefs) (sp : SearchPath)
    (t : UnresolvedName) (e : ResolveErr)
    (h : UnresolvedName.ResolveFunction reg t sp = Except.error e) :
    ResolvableFunctionReference.Resolve reg ⟨FunctionReference.unresolvedName t⟩ sp =
      (Except.error e, ⟨FunctionReference.unresolvedName t⟩) := by
  simp [ResolvableFunctionReference.Resolve, h]

/-- Witness for C8: resolving bogus_fn against the empty registry fails
with the unknown-function error and leaves the cell unresolved, so a
retry remains possible. -/
theorem c8_failure_leaves_cell_unresolved_witness :
    UnresolvedName.ResolveFunction [] [NamePart.name "bogus_fn"] [] =
      Except.error (ResolveErr.unknownFunction [NamePart.name "bogus_fn"]) ∧
    ResolvableFunctionReference.Resolve []
        ⟨FunctionReference.unresolvedName [NamePart.name "bogus_fn"]⟩ [] =
      (Except.error (ResolveErr.unknownFunction [NamePart.name "bogus_fn"]),
        ⟨FunctionReference.unresolvedName [NamePart.name "bogus_fn"]⟩) :=
  ⟨rfl, c8_failure_leaves_cell_unresolved [] [] [NamePart.name "bogus_fn"] _ rfl⟩

/-- Lowercasing the empty string gives the empty string. -/
theorem toLowerGo_empty : toLowerGo "" = "" := rfl

/-- C1: once a Resolve call on a cell has succeeded returning definition
d, every subsequent Resolve call on that cell — with any search path,
including one different from the first — returns d and leaves the cell
holding d; the second search path has no effect on the result. -/
theorem c1_resolve_caches_first_result (reg : FunDefs) (sp1 sp2 : SearchPath)
    (c c' : ResolvableFunctionReference) (d : FunctionDefinition)
    (h : ResolvableFunctionReference.Resolve reg c sp1 = (Except.ok d, c')) :
    c'.FunctionReference = FunctionReference.functionDefinition d ∧
    ResolvableFunctionReference.Resolve reg c' sp2 = (Except.ok d, c') := by
  obtain ⟨r⟩ := c
  cases r with
  | functionDefinition t =>
    simp only [ResolvableFunctionReference.Resolve, Prod.mk.injEq, Except.ok.injEq] at h
    obtain ⟨rfl, rfl⟩ := h
    exact ⟨rfl, rfl⟩
  | unresolvedName t =>
    cases hr : UnresolvedName.ResolveFunction reg t sp1 with
    | error e => simp [ResolvableFunctionReference.Resolve, hr] at h
    | ok fd =>
      simp only [ResolvableFunctionReference.Resolve, hr, Prod.mk.injEq,
        Except.ok.injEq] at h
      obtain ⟨rfl, rfl⟩ := h
      exact ⟨rfl, rfl⟩

/-- Witness for C1: a cell resolved once for "lower" with the empty
search path resolves again under a different search path to the same
definition, the cell unchanged. -/
theorem c1_resolve_caches_first_result_witness :
    ResolvableFunctionReference.Resolve [("lower", (⟨"lower", []⟩ : FunctionDefinition))]
        ⟨FunctionReference.unresolvedName [NamePart.name "lower"]⟩ [] =
      (Except.ok ⟨"lower", []⟩, ⟨FunctionReference.functionDefinition ⟨"lower", []⟩⟩) ∧
    ((⟨FunctionReference.functionDefinition ⟨"lower", []⟩⟩ :
        ResolvableFunctionReference).FunctionReference =
      FunctionReference.functionDefinition ⟨"lower", []⟩ ∧
    ResolvableFunctionReference.Resolve [("lower", (⟨"lower", []⟩ : FunctionDefinition))]
        ⟨FunctionReference.functionDefinition ⟨"lower", []⟩⟩ ["pg_catalog"] =
      (Except.ok ⟨"lower", []⟩, ⟨FunctionReference.functionDefinition ⟨"lower", []⟩⟩)) :=
  ⟨rfl,
    c1_resolve_caches_first_result [("lower", ⟨"lower", []⟩)] [] ["pg_catalog"]
      ⟨FunctionReference.unresolvedName [NamePart.name "lower"]⟩
      ⟨FunctionReference.functionDefinition ⟨"lower", []⟩⟩ ⟨"lower", []⟩ rfl⟩

/-- C6: an unqualified name (empty prefix, empty selector) whose text
exactly as written is a registry key resolves immediately via the fast
path — no case folding of the key, and the search path plays no role
(the result holds for every search path). -/
theorem c6_fast_path_case_exact (reg : FunDefs) (n : UnresolvedName)
    (fn : functionName) (d : FunctionDefinition)
    (h : UnresolvedName.normalizeFunctionName n = Except.ok fn)
    (hsel : fn.selector = []) (hpfx : fn.prefixName = "")
    (hhit : lookupFunDef reg fn.functionName = some d) :
    ∀ sp : SearchPath, UnresolvedName.ResolveFunction reg n sp = Except.ok d := by
  intro sp
  unfold UnresolvedName.ResolveFunction
  rw [h]
  simp only [hsel, List.length_nil, gt_iff_lt, lt_self_iff_false, if_false, hhit, hpfx]
  simp

/-- Witness for C6: resolve("lower", []) succeeds via the fast path. -/
theorem c6_fast_path_case_exact_witness :
    UnresolvedName.normalizeFunctionName [NamePart.name "lower"] =
      Except.ok ⟨"", "lower", []⟩ ∧
    lookupFunDef [("lower", (⟨"lower", []⟩ : FunctionDefinition))] "lower" =
      some ⟨"lower", []⟩ ∧
    UnresolvedName.ResolveFunction [("lower", (⟨"lower", []⟩ : FunctionDefinition))]
        [NamePart.name "lower"] [] = Except.ok ⟨"lower", []⟩ :=
  ⟨rfl, rfl,
    c6_fast_path_case_exact [("lower", ⟨"lower", []⟩)] [NamePart.name "lower"]
      ⟨"", "lower", []⟩ ⟨"lower", []⟩ rfl rfl rfl rfl []⟩

/-- C7: when the fast path misses, both prefix and function name are
lowercased and the candidate lowercase prefix ++ "." ++ lowercase name
(just the lowercase name when the prefix is empty) is looked up; a
registry hit on that candidate is returned immediately. -/
theorem c7_lowercase_qualified_lookup (reg : FunDefs) (sp : SearchPath)
    (n : UnresolvedName) (fn : functionName) (d : FunctionDefinition)
    (h : UnresolvedName.normalizeFunctionName n = Except.ok fn)
    (hsel : fn.selector = [])
    (hmiss : lookupFunDef reg fn.functionName = none ∨ fn.prefixName ≠ "")
    (hhit : lookupFunDef reg
        (if toLowerGo fn.prefixName != "" then
          toLowerGo fn.prefixName ++ "." ++ toLowerGo fn.functionName
        else toLowerGo fn.functionName) = some d) :
    UnresolvedName.ResolveFunction reg n sp = Except.ok d := by
  rw [ResolveFunction_eq_slow reg sp n fn h hsel hmiss]
  simp only [resolveViaLowercase, hhit]

/-- Witness for C7: resolve("PG_CATALOG.NOW", []) case-folds and succeeds
by matching the registry entry keyed pg_catalog.now. -/
theorem c7_lowercase_qualified_lookup_witness :
    UnresolvedName.normalizeFunctionName [NamePart.name "PG_CATALOG", NamePart.name "NOW"] =
      Except.ok ⟨"PG_CATALOG", "NOW", []⟩ ∧
    ("PG_CATALOG" : String) ≠ "" ∧
    lookupFunDef [("pg_catalog.now", (⟨"now", []⟩ : FunctionDefinition))]
        (if toLowerGo "PG_CATALOG" != "" then
          toLowerGo "PG_CATALOG" ++ "." ++ toLowerGo "NOW"
        else toLowerGo "NOW") = some ⟨"now", []⟩ ∧
    UnresolvedName.ResolveFunction [("pg_catalog.now", (⟨"now", []⟩ : FunctionDefinition))]
        [NamePart.name "PG_CATALOG", NamePart.name "NOW"] [] = Except.ok ⟨"now", []⟩ :=
  ⟨rfl, by decide, by decide,
    c7_lowercase_qualified_lookup [("pg_catalog.now", ⟨"now", []⟩)] []
      [NamePart.name "PG_CATALOG", NamePart.name "NOW"] ⟨"PG_CATALOG", "NOW", []⟩
      ⟨"now", []⟩ rfl rfl (Or.inr (by decide)) (by decide)⟩

/-- The registry used by the C5 witness: only pg_catalog.now exists. -/
def regC5 : FunDefs := [("pg_catalog.now", ⟨"now", []⟩)]

/-- C5: for an unqualified name (empty prefix) missed by the fast path
and by the direct lowercase lookup, ResolveFunction tries the search-path
entries strictly in list order, forming entry ++ "." ++ lowercased name,
and returns the definition of the first entry that matches
(List.findSome? returns the first hit in list order), failing with
UnknownFunctionError naming the raw input when no entry matches; for a
qualified name (non-empty prefix) the search path is never consulted —
the result is the same for every search path — and when the lowercase
dotted candidate misses there is no candidate at all, so resolution fails
with UnknownFunctionError naming the raw input. -/
theorem c5_search_path_order (reg : FunDefs) (sp : SearchPath)
    (n : UnresolvedName) (fn : functionName)
    (h : UnresolvedName.normalizeFunctionName n = Except.ok fn)
    (hsel : fn.selector = []) :
    (fn.prefixName = "" →
      lookupFunDef reg fn.functionName = none →
      lookupFunDef reg (toLowerGo fn.functionName) = none →
      UnresolvedName.ResolveFunction reg n sp =
        match List.findSome?
            (fun alt => lookupFunDef reg (alt ++ "." ++ toLowerGo fn.functionName)) sp with
        | some d => Except.ok d
        | none => Except.error (ResolveErr.unknownFunction n)) ∧
    (fn.prefixName ≠ "" →
      (∀ sp' : SearchPath,
        UnresolvedName.ResolveFunction reg n sp = UnresolvedName.ResolveFunction reg n sp') ∧
      (lookupFunDef reg (toLowerGo fn.prefixName ++ "." ++ toLowerGo fn.functionName) = none →
        UnresolvedName.ResolveFunction reg n sp =
          Except.error (ResolveErr.unknownFunction n))) := by
  constructor
  · intro hpfx hfast hlow
    rw [ResolveFunction_eq_slow reg sp n fn h hsel (Or.inl hfast)]
    simp only [resolveViaLowercase, hpfx, toLowerGo_empty]
    simp [hlow]
  · intro hpfx
    have hp : toLowerGo fn.prefixName ≠ "" := fun hc =>
      hpfx ((toLowerGo_eq_empty_iff fn.prefixName).mp hc)
    have hb : (toLowerGo fn.prefixName == "") = false := beq_eq_false_iff_ne.mpr hp
    constructor
    · intro sp'
      rw [ResolveFunction_eq_slow reg sp n fn h hsel (Or.inr hpfx),
        ResolveFunction_eq_slow reg sp' n fn h hsel (Or.inr hpfx)]
      simp only [resolveViaLowercase, bne, hb, Bool.not_false, if_true]
      simp
    · intro hnone
      rw [ResolveFunction_eq_slow reg sp n fn h hsel (Or.inr hpfx)]
      simp only [resolveViaLowercase, bne, hb, Bool.not_false, if_true, hnone]
      simp

/-- Witness for C5: with only pg_catalog.now registered, the unqualified
name now misses the fast path and the direct lowercase lookup, the first
search-path entry bogus misses, and the second entry pg_catalog wins. -/
theorem c5_search_path_order_witness :
    UnresolvedName.normalizeFunctionName [NamePart.name "now"] =
      Except.ok ⟨"", "now", []⟩ ∧
    lookupFunDef regC5 "now" = none ∧
    lookupFunDef regC5 (toLowerGo "now") = none ∧
    UnresolvedName.ResolveFunction regC5 [NamePart.name "now"] ["bogus", "pg_catalog"] =
      Except.ok ⟨"now", []⟩ :=
  ⟨rfl, rfl, rfl,
    ((c5_search_path_order regC5 ["bogus", "pg_catalog"] [NamePart.name "now"]
      ⟨"", "now", []⟩ rfl rfl).1 rfl rfl rfl).trans rfl⟩

end FunctionNameGo
